import Mathlib

/-!
Shallow embedding of the in-memory caching layer of `rayprogramming/hypermcp`
(package `cache`, file `src/cache/cache.go`).

The cache layers a TTL index (a Go `map[string]time.Time` guarded by a
reader-writer lock) on top of an external admission-controlled store
(`ristretto.Cache[string, any]`).  Time instants are modelled as `Int`
(`time.Time` values compared with `After`, i.e. strict `>`), values as a
type parameter `α` (Go `any`), and the two maps as association lists with
unique keys.  Locking and goroutine interleaving are not modelled as such;
each exported method is embedded as a state transformer executing its body
atomically, plus (for `Delete`) an explicit event trace recording the order
of its primitive steps, which is what the ordering claims are about.
-/

namespace Hypermcp

/-- First value bound to `key`, mirroring Go map lookup `m[key]`. -/
def lookupKey {β : Type} : List (String × β) → String → Option β
  | [], _ => none
  | (k, v) :: rest, key => if k = key then some v else lookupKey rest key

/-- Remove every binding of `key`, mirroring Go `delete(m, key)` on a map
with unique keys. -/
def eraseKey {β : Type} (key : String) : List (String × β) → List (String × β)
  | [] => []
  | (k, v) :: rest => if k = key then eraseKey key rest else (k, v) :: eraseKey key rest

/-- Insert or overwrite the binding of `key`, mirroring Go `m[key] = v`. -/
def insertKey {β : Type} (key : String) (v : β) (l : List (String × β)) :
    List (String × β) :=
  (key, v) :: eraseKey key l

/-! ## External store (collaborator)

Modelled from the spec: the External Cache Store (`ristretto.Cache`) is a
third-party collaborator whose source is not part of this repository.  Per
the spec it exposes `Get(key)→(value,bool)`, `Set(key,value,cost)`,
`Del(key)`, `Clear()`; its admission/eviction algorithm decides whether a
`Set` is retained, so `storeSet` takes that decision as an explicit
`keep : Bool` argument, and the cost argument is used only for the store's
internal accounting (it never affects which value a key maps to). -/

/-- Modelled from the spec: store read, `store.Get(key)`. -/
def storeGet {α : Type} (s : List (String × α)) (key : String) : Option α × Bool :=
  match lookupKey s key with
  | some v => (some v, true)
  | none => (none, false)

/-- Modelled from the spec: store write `store.Set(key, value, cost)`; the
store's admission decision `keep` says whether the entry is retained. -/
def storeSet {α : Type} (s : List (String × α)) (key : String) (value : α)
    (_cost : Int) (keep : Bool) : List (String × α) :=
  if keep then insertKey key value s else s

/-- Modelled from the spec: store removal, `store.Del(key)`. -/
def storeDel {α : Type} (s : List (String × α)) (key : String) : List (String × α) :=
  eraseKey key s

/-- Modelled from the spec: `store.Clear()` empties the store. -/
def storeClear {α : Type} (_s : List (String × α)) : List (String × α) := []

/-! ## Cache state -/

/-- State of a `cache.Cache`: the TTL index `ttls : map[string]time.Time`,
the contents of the external ristretto store, and a flag recording whether
`store.Close()` has released the store (ristretto-internal state, modelled
because `Close` is specified to release it). -/
structure Cache (α : Type) where
  ttls : List (String × Int)
  store : List (String × α)
  storeClosed : Bool
  deriving DecidableEq, Repr

/-! ## Configuration and construction -/

/-- `cache.Config` from `src/cache/cache.go`. -/
structure Config where
  MaxCost : Int
  NumCounters : Int
  BufferItems : Int
  deriving DecidableEq, Repr

/-- `cache.DefaultConfig` from `src/cache/cache.go`. -/
def DefaultConfig : Config :=
  { MaxCost := 100 * 1024 * 1024, NumCounters := 1000000, BufferItems := 64 }

/-- Modelled from the spec: the distinct named configuration-error kinds
`ErrInvalidMaxCost`, `ErrInvalidNumCounters`, `ErrInvalidBufferItems` that
`cache_test.go` checks for (`errors.Is` against sentinel values wrapped in a
`ValidationError`); their defining file is not among the provided sources. -/
inductive ValidationError where
  | ErrInvalidMaxCost
  | ErrInvalidNumCounters
  | ErrInvalidBufferItems
  deriving DecidableEq, Repr

/-- Modelled from the spec: the Config Validator (§4.4): "max cost > 0,
counter count > 0, buffer size > 0; each violation yields a distinct, named
error kind identifying the offending field".  Its definition is referenced
by `cache_test.go` (zero and negative values must fail) but is not among
the provided sources; fields are checked in the order the spec and the
tests list them. -/
def validate (cfg : Config) : Option ValidationError :=
  if cfg.MaxCost ≤ 0 then some .ErrInvalidMaxCost
  else if cfg.NumCounters ≤ 0 then some .ErrInvalidNumCounters
  else if cfg.BufferItems ≤ 0 then some .ErrInvalidBufferItems
  else none

/-- Errors observable from `cache.New`: a configuration-validation failure,
or the store constructor's own error.  In the source (`New`,
`src/cache/cache.go`) a failing `ristretto.NewCache` has its error value
returned to the caller as `return nil, err`; the `String` carried by
`storeFailure` is that error's message. -/
inductive NewError where
  | validation (e : ValidationError)
  | storeFailure (msg : String)
  deriving DecidableEq, Repr

/-- `cache.New`.  The store constructor (`ristretto.NewCache`) is external,
so it is passed in as `newStore`, returning either an error message or unit
(a fresh store is empty).  The validation step is modelled from the spec
(see `validate`); the rest follows `src/cache/cache.go` lines 39–60: on a
store-constructor error, `err` is returned unchanged; on success the cache
starts with an empty TTL map. -/
def New {α : Type} (cfg : Config) (newStore : Config → Except String Unit) :
    Except NewError (Cache α) :=
  match validate cfg with
  | some e => .error (.validation e)
  | none =>
    match newStore cfg with
    | .error msg => .error (.storeFailure msg)
    | .ok _ => .ok { ttls := [], store := [], storeClosed := false }

/-- The spec's words for the store-failure error (§7): the store's error
"wrapped with context (\x22failed to create store\x22)", i.e. the Go idiom
`fmt.Errorf("failed to create store: %w", err)`.  Named `...Spec` because it
follows the spec, to be compared with what `New` actually returns. -/
def wrappedStoreErrorSpec (msg : String) : String :=
  "failed to create store: " ++ msg

/-! ## Facade operations, from `src/cache/cache.go` -/

/-- `Cache.Delete` (lines 104–112): `c.store.Del(key)`, then under the write
lock `delete(c.ttls, key)`. -/
def Cache.Delete {α : Type} (c : Cache α) (key : String) : Cache α :=
  { c with store := storeDel c.store key, ttls := eraseKey key c.ttls }

/-- `Cache.Get` (lines 63–80): read the expiry under the read lock; if one
exists and `time.Now().After(expiry)` (strictly later), call `Delete` and
report not-found; otherwise return the store's result.  Returns the
`(value, found)` pair together with the post-state. -/
def Cache.Get {α : Type} (c : Cache α) (key : String) (now : Int) :
    (Option α × Bool) × Cache α :=
  match lookupKey c.ttls key with
  | some expiry =>
    if expiry < now then ((none, false), c.Delete key)
    else
      match storeGet c.store key with
      | (some v, _) => ((some v, true), c)
      | (none, _) => ((none, false), c)
  | none =>
    match storeGet c.store key with
    | (some v, _) => ((some v, true), c)
    | (none, _) => ((none, false), c)

/-- `Cache.Set` (lines 83–101): constant cost 64, `store.Set` (admission
decided by the store, passed here as `keep`), then record `key ↦ now+ttl`
in the TTL map only when `ttl > 0` — a `ttl ≤ 0` call leaves `c.ttls`
untouched. -/
def Cache.Set {α : Type} (c : Cache α) (key : String) (value : α) (ttl : Int)
    (now : Int) (keep : Bool) : Cache α :=
  let cost : Int := 64
  let store1 := storeSet c.store key value cost keep
  let ttls1 := if 0 < ttl then insertKey key (now + ttl) c.ttls else c.ttls
  { c with store := store1, ttls := ttls1 }

/-- `Cache.Clear` (lines 115–123): `store.Clear()`, then reset the TTL map
to a fresh empty map. -/
def Cache.Clear {α : Type} (c : Cache α) : Cache α :=
  { c with store := storeClear c.store, ttls := [] }

/-- `Cache.Close` (lines 158–160): the body is exactly `c.store.Close()`;
no signal of any kind is delivered to the `cleanupExpired` goroutine. -/
def Cache.Close {α : Type} (c : Cache α) : Cache α :=
  { c with storeClosed := true }

/-- One tick of the `cleanupExpired` goroutine (lines 131–155): under the
read lock collect every key whose expiry satisfies `now.After(expiry)`
(strictly earlier than `now`), then `Delete` each collected key.  The loop
`for range ticker.C` has no stop condition, so the tick body never consults
any shutdown state — in particular not `storeClosed`. -/
def Cache.cleanupExpiredTick {α : Type} (c : Cache α) (now : Int) : Cache α :=
  let expired := (c.ttls.filter (fun p => decide (p.2 < now))).map Prod.fst
  expired.foldl (fun acc key => acc.Delete key) c

/-! ## Event trace of Delete

The ordering claim about `Delete` is about the order of its primitive
steps, not about the final state, so the step order is recorded as a
trace of events read off the statements of the source. -/

/-- Primitive steps `Delete` can take. -/
inductive CacheEvent where
  | storeDelEv (key : String)
  | lockWrite
  | ttlRemove (key : String)
  | unlockWrite
  deriving DecidableEq, Repr

/-- The statement order of `Cache.Delete` in `src/cache/cache.go` lines
104–112: `c.store.Del(key)`; `c.mu.Lock()`; `delete(c.ttls, key)`;
`c.mu.Unlock()`. -/
def deleteEvents (key : String) : List CacheEvent :=
  [.storeDelEv key, .lockWrite, .ttlRemove key, .unlockWrite]

/-- The order the spec prescribes for `Delete` (§4.1): "acquire a write
lock, remove the key from the TTL Index, then remove it from the External
Store, then release the lock".  Named `...Spec` because it follows the
spec's words, to be compared with `deleteEvents`. -/
def deleteEventsSpec (key : String) : List CacheEvent :=
  [.lockWrite, .ttlRemove key, .storeDelEv key, .unlockWrite]

/-! ## Association-list lemmas -/

lemma lookup_insertKey_self {β : Type} (key : String) (v : β) (l : List (String × β)) :
    lookupKey (insertKey key v l) key = some v := by
  simp [insertKey, lookupKey]

lemma lookup_eraseKey_self {β : Type} (key : String) (l : List (String × β)) :
    lookupKey (eraseKey key l) key = none := by
  induction l with
  | nil => rfl
  | cons p rest ih =>
    obtain ⟨k, v⟩ := p
    by_cases h : k = key <;> simp [eraseKey, lookupKey, h, ih]

lemma lookup_eraseKey_ne {β : Type} {k key : String} (hk : k ≠ key)
    (l : List (String × β)) : lookupKey (eraseKey k l) key = lookupKey l key := by
  induction l with
  | nil => rfl
  | cons p rest ih =>
    obtain ⟨k1, v⟩ := p
    have hk2 : key ≠ k := Ne.symm hk
    by_cases h : k1 = k
    · subst h
      simp [eraseKey, lookupKey, hk, ih]
    · by_cases h2 : k1 = key <;> simp [eraseKey, lookupKey, h, h2, ih, hk2]

lemma lookup_eraseKey_none {β : Type} {key : String} {l : List (String × β)}
    (k : String) (h : lookupKey l key = none) :
    lookupKey (eraseKey k l) key = none := by
  by_cases hk : k = key
  · subst hk
    exact lookup_eraseKey_self k l
  · rw [lookup_eraseKey_ne hk]
    exact h

lemma lookupKey_mem {β : Type} {l : List (String × β)} {key : String} {v : β}
    (h : lookupKey l key = some v) : (key, v) ∈ l := by
  induction l with
  | nil => simp [lookupKey] at h
  | cons p rest ih =>
    obtain ⟨k, v1⟩ := p
    by_cases hk : k = key
    · subst hk
      simp [lookupKey] at h
      subst h
      exact List.mem_cons_self _ _
    · simp [lookupKey, hk] at h
      exact List.mem_cons_of_mem _ (ih h)

lemma eraseKey_of_lookup_none {β : Type} {key : String} {l : List (String × β)}
    (h : lookupKey l key = none) : eraseKey key l = l := by
  induction l with
  | nil => rfl
  | cons p rest ih =>
    obtain ⟨k, v⟩ := p
    by_cases hk : k = key
    · simp [lookupKey, hk] at h
    · simp [lookupKey, hk] at h
      simp [eraseKey, hk, ih h]

/-! ## Lemmas about folding Delete over a key list (the reaper's second loop) -/

lemma foldl_Delete_ttls_none {α : Type} (ks : List String) (c : Cache α)
    (key : String) (h : lookupKey c.ttls key = none) :
    lookupKey (ks.foldl (fun acc k => acc.Delete k) c).ttls key = none := by
  induction ks generalizing c with
  | nil => exact h
  | cons k rest ih =>
    apply ih
    show lookupKey (eraseKey k c.ttls) key = none
    exact lookup_eraseKey_none k h

lemma foldl_Delete_store_none {α : Type} (ks : List String) (c : Cache α)
    (key : String) (h : lookupKey c.store key = none) :
    lookupKey (ks.foldl (fun acc k => acc.Delete k) c).store key = none := by
  induction ks generalizing c with
  | nil => exact h
  | cons k rest ih =>
    apply ih
    show lookupKey (eraseKey k c.store) key = none
    exact lookup_eraseKey_none k h

lemma foldl_Delete_ttls_of_mem {α : Type} (ks : List String) (c : Cache α)
    (key : String) (h : key ∈ ks) :
    lookupKey (ks.foldl (fun acc k => acc.Delete k) c).ttls key = none := by
  induction ks generalizing c with
  | nil => cases h
  | cons k rest ih =>
    by_cases hmem : key ∈ rest
    · exact ih (c.Delete k) hmem
    · have hk : k = key := by
        rcases List.mem_cons.mp h with h1 | h2
        · exact h1.symm
        · exact absurd h2 hmem
      subst hk
      exact foldl_Delete_ttls_none rest (c.Delete k) k (lookup_eraseKey_self k c.ttls)

lemma foldl_Delete_store_of_mem {α : Type} (ks : List String) (c : Cache α)
    (key : String) (h : key ∈ ks) :
    lookupKey (ks.foldl (fun acc k => acc.Delete k) c).store key = none := by
  induction ks generalizing c with
  | nil => cases h
  | cons k rest ih =>
    by_cases hmem : key ∈ rest
    · exact ih (c.Delete k) hmem
    · have hk : k = key := by
        rcases List.mem_cons.mp h with h1 | h2
        · exact h1.symm
        · exact absurd h2 hmem
      subst hk
      exact foldl_Delete_store_none rest (c.Delete k) k (lookup_eraseKey_self k c.store)

/-! ## Claims -/

/-- C1: a configuration with `MaxCost ≤ 0`, `NumCounters ≤ 0` or
`BufferItems ≤ 0` makes `New` fail with the distinct named error kind for
the offending field (checked in the order MaxCost, NumCounters,
BufferItems); the result does not depend on the store constructor, so the
external store is never constructed and no cache instance is created. -/
theorem c1_new_rejects_nonpositive_config {α : Type} (cfg : Config)
    (ns ns' : Config → Except String Unit) :
    (cfg.MaxCost ≤ 0 →
      New (α := α) cfg ns = .error (.validation .ErrInvalidMaxCost)) ∧
    (0 < cfg.MaxCost → cfg.NumCounters ≤ 0 →
      New (α := α) cfg ns = .error (.validation .ErrInvalidNumCounters)) ∧
    (0 < cfg.MaxCost → 0 < cfg.NumCounters → cfg.BufferItems ≤ 0 →
      New (α := α) cfg ns = .error (.validation .ErrInvalidBufferItems)) ∧
    ((cfg.MaxCost ≤ 0 ∨ cfg.NumCounters ≤ 0 ∨ cfg.BufferItems ≤ 0) →
      New (α := α) cfg ns = New (α := α) cfg ns') := by
  refine ⟨?_, ?_, ?_, ?_⟩
  · intro h
    simp [New, validate, h]
  · intro h1 h2
    simp [New, validate, not_le.mpr h1, h2]
  · intro h1 h2 h3
    simp [New, validate, not_le.mpr h1, not_le.mpr h2, h3]
  · intro h
    rcases h with h | h | h
    · simp [New, validate, h]
    · by_cases hm : cfg.MaxCost ≤ 0 <;> simp [New, validate, hm, h]
    · by_cases hm : cfg.MaxCost ≤ 0
      · simp [New, validate, hm]
      · by_cases hn : cfg.NumCounters ≤ 0 <;> simp [New, validate, hm, hn, h]

/-- Witness for C1 at the configurations the tests use: `MaxCost = 0`,
`NumCounters = 0`, `BufferItems = 0`, and independence of the constructor
at an invalid configuration. -/
theorem c1_witness :
    New (α := Unit) ⟨0, 100, 10⟩ (fun _ => Except.ok ())
      = .error (.validation .ErrInvalidMaxCost) ∧
    New (α := Unit) ⟨1024, 0, 10⟩ (fun _ => Except.ok ())
      = .error (.validation .ErrInvalidNumCounters) ∧
    New (α := Unit) ⟨1024, 100, 0⟩ (fun _ => Except.ok ())
      = .error (.validation .ErrInvalidBufferItems) ∧
    New (α := Unit) ⟨0, 100, 10⟩ (fun _ => Except.ok ())
      = New (α := Unit) ⟨0, 100, 10⟩ (fun _ => Except.error "x") :=
  ⟨(c1_new_rejects_nonpositive_config ⟨0, 100, 10⟩ (fun _ => Except.ok ())
      (fun _ => Except.error "x")).1 (by decide),
   (c1_new_rejects_nonpositive_config ⟨1024, 0, 10⟩ (fun _ => Except.ok ())
      (fun _ => Except.error "x")).2.1 (by decide) (by decide),
   (c1_new_rejects_nonpositive_config ⟨1024, 100, 0⟩ (fun _ => Except.ok ())
      (fun _ => Except.error "x")).2.2.1 (by decide) (by decide) (by decide),
   (c1_new_rejects_nonpositive_config ⟨0, 100, 10⟩ (fun _ => Except.ok ())
      (fun _ => Except.error "x")).2.2.2 (Or.inl (by decide))⟩

/-- C2 as stated is false: with an expiry already recorded for `"k"`, a
`Set` with `ttl = 0` leaves the TTL entry in place, so the key does not
become "never expiring". -/
theorem c2_counterexample :
    lookupKey ((Cache.Set (⟨[("k", 5)], [], false⟩ : Cache String)
      "k" "v2" 0 10 true).ttls) "k" ≠ none := by
  decide

/-- C2 (amended): `Set` with `ttl ≤ 0` leaves the TTL Index unchanged — it
records no entry for a previously-unset key, but it also does not remove an
expiry recorded by an earlier `Set` with positive ttl, so such a key can
still expire. -/
theorem c2_set_nonpositive_ttl_keeps_index {α : Type} (c : Cache α)
    (key : String) (value : α) (ttl now : Int) (keep : Bool) (h : ttl ≤ 0) :
    (c.Set key value ttl now keep).ttls = c.ttls := by
  simp [Cache.Set, not_lt.mpr h]

/-- Witness for C2 (amended) at `ttl = 0` over an index holding `"k" ↦ 5`. -/
theorem c2_witness :
    ((⟨[("k", 5)], [], false⟩ : Cache String).Set "k" "v2" 0 10 true).ttls
      = [("k", 5)] :=
  c2_set_nonpositive_ttl_keeps_index ⟨[("k", 5)], [], false⟩ "k" "v2" 0 10 true
    (by decide)

/-- C3: the spec is right that `Close` must stop the Reaper, but the code
never signals the `cleanupExpired` goroutine (its `for range ticker.C` loop
has no stop condition, so the `defer ticker.Stop()` above it is
unreachable).  Concretely: after `Close`, a reaper tick still scans the TTL
index and deletes the expired key `"k"`, i.e. the tick changes the state of
a closed cache. -/
theorem c3_reaper_still_ticks_after_close :
    Cache.cleanupExpiredTick
        (Cache.Close (⟨[("k", 0)], [("k", "v")], false⟩ : Cache String)) 1
      = ⟨[], [], true⟩ ∧
    Cache.cleanupExpiredTick
        (Cache.Close (⟨[("k", 0)], [("k", "v")], false⟩ : Cache String)) 1
      ≠ Cache.Close (⟨[("k", 0)], [("k", "v")], false⟩ : Cache String) := by
  constructor <;> decide

/-- C6 as stated is false: with a valid configuration and a store
constructor failing with message `"boom"`, `New` returns exactly
`storeFailure "boom"` — the message is not the spec's wrapped form
`"failed to create store: boom"`. -/
theorem c6_counterexample :
    New (α := Unit) ⟨1024, 100, 10⟩ (fun _ => Except.error "boom")
      = .error (.storeFailure "boom") ∧
    NewError.storeFailure "boom"
      ≠ NewError.storeFailure (wrappedStoreErrorSpec "boom") :=
  ⟨rfl, by decide⟩

/-- C6 (amended): when the store constructor fails on a valid
configuration, `New` propagates the store's error unchanged — with no
added context — and returns no cache instance. -/
theorem c6_store_error_propagated_unwrapped {α : Type} (cfg : Config)
    (msg : String) (ns : Config → Except String Unit)
    (hv : validate cfg = none) (hs : ns cfg = .error msg) :
    New (α := α) cfg ns = .error (.storeFailure msg) := by
  simp [New, hv, hs]

/-- Witness for C6 (amended) at a valid configuration and a constructor
failing with `"boom"`. -/
theorem c6_witness :
    New (α := Unit) ⟨1024, 100, 10⟩ (fun _ => Except.error "boom")
      = .error (.storeFailure "boom") :=
  c6_store_error_propagated_unwrapped ⟨1024, 100, 10⟩ "boom"
    (fun _ => Except.error "boom") (by decide) rfl

/-- C4 as stated is false at the boundary: with `"k" ↦ 5` in the TTL index
and `"k" ↦ "v"` in the store, `Get` at `now = 5` (expiry equal to the
current instant) reports the key as present and leaves the state unchanged,
because the source tests `time.Now().After(expiry)`, a strict comparison. -/
theorem c4_counterexample :
    Cache.Get (⟨[("k", 5)], [("k", "v")], false⟩ : Cache String) "k" 5
      = ((some "v", true), ⟨[("k", 5)], [("k", "v")], false⟩) := by
  decide

/-- C4 (amended): `Get` treats a key as expired only when its expiry is
strictly earlier than `now` — then it invokes `Delete` and reports
not-found; when the expiry is ≥ `now`, or no TTL entry exists, it returns
exactly the External Store's result and leaves the state unchanged.  A key
whose expiry equals the current instant is still served from the store. -/
theorem c4_get_expiry_semantics {α : Type} (c : Cache α) (key : String)
    (now : Int) :
    (∀ e, lookupKey c.ttls key = some e → e < now →
      c.Get key now = ((none, false), c.Delete key)) ∧
    (∀ e, lookupKey c.ttls key = some e → now ≤ e →
      c.Get key now = (storeGet c.store key, c)) ∧
    (lookupKey c.ttls key = none →
      c.Get key now = (storeGet c.store key, c)) := by
  refine ⟨?_, ?_, ?_⟩
  · intro e he hlt
    simp [Cache.Get, he, hlt]
  · intro e he hle
    have hnl : ¬ e < now := not_lt.mpr hle
    cases hs : lookupKey c.store key <;> simp [Cache.Get, he, hnl, storeGet, hs]
  · intro hn
    cases hs : lookupKey c.store key <;> simp [Cache.Get, hn, storeGet, hs]

/-- Witness for C4 (amended): one expired read (`expiry 3 < now 7`), one
live read at the boundary (`expiry 5 = now`), one read with no TTL entry. -/
theorem c4_witness :
    Cache.Get (⟨[("k", 3)], [("k", "v")], false⟩ : Cache String) "k" 7
      = ((none, false),
         Cache.Delete (⟨[("k", 3)], [("k", "v")], false⟩ : Cache String) "k") ∧
    Cache.Get (⟨[("k", 5)], [("k", "w")], false⟩ : Cache String) "k" 5
      = (storeGet [("k", "w")] "k", ⟨[("k", 5)], [("k", "w")], false⟩) ∧
    Cache.Get (⟨[], [("k", "u")], false⟩ : Cache String) "k" 9
      = (storeGet [("k", "u")] "k", ⟨[], [("k", "u")], false⟩) :=
  ⟨(c4_get_expiry_semantics ⟨[("k", 3)], [("k", "v")], false⟩ "k" 7).1 3
      (by decide) (by decide),
   (c4_get_expiry_semantics ⟨[("k", 5)], [("k", "w")], false⟩ "k" 5).2.1 5
      (by decide) (by decide),
   (c4_get_expiry_semantics ⟨[], [("k", "u")], false⟩ "k" 9).2.2 (by decide)⟩

/-- C5 as stated is false: the step order of `Delete` is not the
spec-prescribed "lock, remove TTL entry, remove store entry, unlock". -/
theorem c5_counterexample : deleteEvents "k" ≠ deleteEventsSpec "k" := by
  decide

/-- C5 (amended): `Delete` removes the key from the External Store first,
before taking the write lock, and then removes the TTL entry inside the
write-lock section; once it returns, neither the TTL Index nor the store
holds the key. -/
theorem c5_delete_order_and_effect {α : Type} (c : Cache α) (key : String) :
    deleteEvents key
      = [.storeDelEv key, .lockWrite, .ttlRemove key, .unlockWrite] ∧
    lookupKey (c.Delete key).ttls key = none ∧
    lookupKey (c.Delete key).store key = none :=
  ⟨rfl, lookup_eraseKey_self key c.ttls, lookup_eraseKey_self key c.store⟩

/-- C7: a `Set` with positive ttl that the store retains, followed by a
`Get` strictly before the recorded expiry, returns the value with
`found = true` and does not disturb the state. -/
theorem c7_set_then_get_roundtrip {α : Type} (c : Cache α) (key : String)
    (value : α) (ttl now t : Int) (httl : 0 < ttl) (ht : t < now + ttl) :
    (c.Set key value ttl now true).Get key t
      = ((some value, true), c.Set key value ttl now true) := by
  have hsome : lookupKey (c.Set key value ttl now true).ttls key
      = some (now + ttl) := by
    simp [Cache.Set, httl, lookup_insertKey_self]
  have hstore : lookupKey (c.Set key value ttl now true).store key
      = some value := by
    simp [Cache.Set, storeSet, lookup_insertKey_self]
  have hnot : ¬ (now + ttl < t) := not_lt.mpr (le_of_lt ht)
  simp [Cache.Get, hsome, hnot, storeGet, hstore]

/-- Witness for C7: `Set("k","v",ttl 5)` at time 0, `Get` at time 3. -/
theorem c7_witness :
    ((⟨[], [], false⟩ : Cache String).Set "k" "v" 5 0 true).Get "k" 3
      = ((some "v", true), (⟨[], [], false⟩ : Cache String).Set "k" "v" 5 0 true) :=
  c7_set_then_get_roundtrip ⟨[], [], false⟩ "k" "v" 5 0 3 (by decide) (by decide)

/-- C8 as stated is false at the boundary: a tick at `T = 5` does not
collect the key whose recorded expiry is exactly 5 (the source tests
`now.After(expiry)`, strict), so that key survives the tick in both the
TTL index and the store. -/
theorem c8_counterexample :
    Cache.cleanupExpiredTick (⟨[("k", 5)], [("k", "v")], false⟩ : Cache String) 5
      = ⟨[("k", 5)], [("k", "v")], false⟩ := by
  decide

/-- C8 (amended): a reaper tick at time `T` deletes every key whose
recorded expiry is strictly earlier than `T` from both the TTL Index and
the External Store, and a redundant `Delete` of a key absent from both is
a no-op. -/
theorem c8_reaper_tick_removes_expired {α : Type} (c : Cache α) (now : Int) :
    (∀ key e, lookupKey c.ttls key = some e → e < now →
      lookupKey (c.cleanupExpiredTick now).ttls key = none ∧
      lookupKey (c.cleanupExpiredTick now).store key = none) ∧
    (∀ (d : Cache α) (key : String),
      lookupKey d.ttls key = none → lookupKey d.store key = none →
      d.Delete key = d) := by
  constructor
  · intro key e he hlt
    have hmem : key ∈ (c.ttls.filter (fun p => decide (p.2 < now))).map Prod.fst := by
      refine List.mem_map.mpr ⟨(key, e), ?_, rfl⟩
      exact List.mem_filter.mpr ⟨lookupKey_mem he, by simpa using hlt⟩
    exact ⟨foldl_Delete_ttls_of_mem _ c key hmem,
           foldl_Delete_store_of_mem _ c key hmem⟩
  · intro d key h1 h2
    simp [Cache.Delete, storeDel, eraseKey_of_lookup_none h1,
      eraseKey_of_lookup_none h2]

/-- Witness for C8 (amended): a tick at time 1 removes the key that
expired at time 0 from both maps, and deleting from an empty cache is a
no-op. -/
theorem c8_witness :
    lookupKey ((Cache.cleanupExpiredTick
        (⟨[("k", 0)], [("k", "v")], false⟩ : Cache String) 1)).ttls "k" = none ∧
    lookupKey ((Cache.cleanupExpiredTick
        (⟨[("k", 0)], [("k", "v")], false⟩ : Cache String) 1)).store "k" = none ∧
    Cache.Delete (⟨[], [], false⟩ : Cache String) "k" = ⟨[], [], false⟩ :=
  ⟨((c8_reaper_tick_removes_expired
      (⟨[("k", 0)], [("k", "v")], false⟩ : Cache String) 1).1 "k" 0
      (by decide) (by decide)).1,
   ((c8_reaper_tick_removes_expired
      (⟨[("k", 0)], [("k", "v")], false⟩ : Cache String) 1).1 "k" 0
      (by decide) (by decide)).2,
   (c8_reaper_tick_removes_expired (⟨[], [], false⟩ : Cache String) 1).2
      ⟨[], [], false⟩ "k" rfl rfl⟩

/-- C9: after `Clear` the TTL Index and the store are both empty, so `Get`
on any key at any time returns `(nil, false)` and leaves the cleared state
unchanged. -/
theorem c9_clear_wipes_everything {α : Type} (c : Cache α) (key : String)
    (t : Int) :
    (c.Clear).ttls = [] ∧ (c.Clear).store = [] ∧
    c.Clear.Get key t = ((none, false), c.Clear) := by
  refine ⟨rfl, rfl, ?_⟩
  simp [Cache.Clear, Cache.Get, storeClear, storeGet, lookupKey]

/-- C10: whenever `Get` reports `found = false` — expired key, store miss,
or never-set key — the value component is `nil` (`none`). -/
theorem c10_not_found_value_is_nil {α : Type} (c : Cache α) (key : String)
    (now : Int) (h : ((c.Get key now).1).2 = false) :
    ((c.Get key now).1).1 = none := by
  cases hl : lookupKey c.ttls key with
  | none =>
    cases hs : lookupKey c.store key <;>
      simp [Cache.Get, hl, hs, storeGet] at h ⊢
  | some e =>
    by_cases he : e < now
    · simp [Cache.Get, hl, he]
    · cases hs : lookupKey c.store key <;>
        simp [Cache.Get, hl, he, hs, storeGet] at h ⊢

/-- Witness for C10 on an empty cache, where `Get` misses. -/
theorem c10_witness :
    (((⟨[], [], false⟩ : Cache String).Get "k" 0).1).1 = none :=
  c10_not_found_value_is_nil ⟨[], [], false⟩ "k" 0 (by decide)

end Hypermcp
